import Mathlib

/-!
Verification of the helm rollback action (pkg/action/rollback.go).

The rollback engine is shallowly embedded: the external collaborators
(Release Store, Cluster Client, Hook Executor) are modelled as oracles whose
responses are fields of an `Env` structure, the store as a list of release
records, and every external call is additionally logged in an event trace so
that frame conditions (which calls happen, which do not) can be stated.
-/

namespace Helm

/-- Errors are their message strings (Go `error` values are compared by text). -/
abbrev Err := String

/-- Release status enum (pkg/release/status.go). -/
inductive Status where
  | unknown
  | deployed
  | uninstalled
  | superseded
  | failed
  | uninstalling
  | pendingInstall
  | pendingUpgrade
  | pendingRollback
deriving DecidableEq, Repr

/-- Release.Info: deployment times, status, notes and description. Times are
modelled as naturals. -/
structure Info where
  firstDeployed : Nat
  lastDeployed : Nat
  status : Status
  notes : String
  description : String
deriving DecidableEq, Repr

/-- A release record (pkg/release/release.go). The chart reference and the
config are opaque to the rollback engine, modelled as strings; hooks as a
list of opaque hook descriptors. -/
structure Release where
  name : String
  «namespace» : String
  chart : String
  config : String
  info : Info
  version : Int
  manifest : String
  hooks : List String
deriving DecidableEq, Repr

/-- Result of a cluster apply (kube.Result): created / updated / deleted
resource descriptors. -/
structure KubeResult where
  created : List String
  updated : List String
  deleted : List String
deriving DecidableEq, Repr

/-- Replace a release status in place, keeping everything else
(`rel.Info.Status = st` in the source). -/
def withStatus (rel : Release) (st : Status) : Release :=
  { rel with info := { rel.info with status := st } }

/-- release.SetStatus: sets both the status and the description. -/
def Release.setStatus (rel : Release) (st : Status) (desc : String) : Release :=
  { rel with info := { rel.info with status := st, description := desc } }

/-- errors.Wrap / errors.Wrapf: the wrapped message is "msg: cause". -/
def wrap (e msg : String) : String := msg ++ ": " ++ e

/-- fmt %q on a name (quotation marks around it). -/
def quoted (s : String) : String := "\"" ++ s ++ "\""

/-! ## The Release Store

Modelled from the spec: the Release Store collaborator
(`Get(name, revision)`, `Last(name)`, `Create`, `Update`, `DeployedAll(name)`)
lives outside src/; its operations are modelled from the contract in the
spec: Get/Last fail with a not-found error when no record matches, Create
fails when the key already exists, DeployedAll returns every record of the
name whose status is deployed. -/

/-- The store is the list of persisted release records. -/
abbrev Store := List Release

/-- Do two release records address the same stored key (name, revision)? -/
def sameKey (a b : Release) : Bool :=
  a.name == b.name && a.version == b.version

/-- Modelled from the spec: Release Store `Get(name, revision)`. -/
def Store.get (s : Store) (name : String) (ver : Int) : Except Err Release :=
  match s.find? (fun r => r.name == name && r.version == ver) with
  | some r => .ok r
  | none => .error ("release: not found")

/-- Keep the record with the higher revision (the fold step of `Last`). -/
def pickLater (acc : Option Release) (r : Release) : Option Release :=
  match acc with
  | none => some r
  | some b => if b.version < r.version then some r else some b

/-- Modelled from the spec: Release Store `Last(name)`: the record with the
highest revision among those with the given name. -/
def Store.last (s : Store) (name : String) : Except Err Release :=
  match (s.filter (fun r => r.name == name)).foldl pickLater none with
  | some r => .ok r
  | none => .error ("release: not found")

/-- Modelled from the spec: Release Store `Create`, which fails if a record
with the same key already exists (this is the implicit
optimistic-concurrency check the spec mentions). -/
def Store.create (s : Store) (rel : Release) : Except Err Store :=
  if s.any (fun r => sameKey r rel) then .error "release: already exists"
  else .ok (s ++ [rel])

/-- Modelled from the spec: Release Store `Update`, replacing the record with
the same key. Used by recordRelease, which logs and swallows update
failures, so a missing key leaves the store unchanged. -/
def Store.update (s : Store) (rel : Release) : Store :=
  s.map (fun r => if sameKey r rel then rel else r)

/-- Modelled from the spec: Configuration.recordRelease persists a release
via the Release Store `Update`, logging and swallowing failures. -/
def recordRelease (s : Store) (rel : Release) : Store := s.update rel

/-- Modelled from the spec: the Release Store `Update` as invoked directly by
the entry point, where a failure (no record with the key) propagates. -/
def Store.updateE (s : Store) (rel : Release) : Except Err Store :=
  if s.any (fun r => sameKey r rel) then .ok (s.update rel)
  else .error "release: not found"

/-- Modelled from the spec: Release Store `DeployedAll(name)`; the
"has no deployed releases" sentinel is the empty list, not an error. -/
def Store.deployedAll (s : Store) (name : String) : List Release :=
  s.filter (fun r => r.name == name && r.info.status == Status.deployed)

/-! ## External call trace -/

/-- One observable call to an external collaborator. -/
inductive Event where
  | storeLast (name : String)
  | storeGet (name : String) (ver : Int)
  | storeCreate (rel : Release)
  | storeUpdate (rel : Release)
  | storeDeployedAll (name : String)
  | kubeIsReachable
  | kubeBuild (manifest : String)
  | kubeUpdate
  | kubeWait
  | kubeWaitWithJobs
  | kubeDelete (objs : List String)
  | hookExec (kind : String)
  | recreatePods
deriving DecidableEq, Repr

/-! ## The environment (external collaborators as oracles) -/

/-- The Cluster Client collaborator, as an oracle of responses
(kube.Interface). `serverDryRunnable` models whether the client implements
kube.ServerDryRunnableInterface; the server-dry-run-scoped variant returned
by WithServerDryRun is modelled as responding identically. -/
structure KubeClient where
  serverDryRunnable : Bool
  isReachable : Option Err
  build : String → Except Err (List String)
  update : List String → List String → Bool → KubeResult × Option Err
  wait : List String → Nat → Option Err
  waitWithJobs : List String → Nat → Option Err
  delete : List String → List Err

/-- The full environment of one invocation: the Cluster Client, the Hook
Executor response (modelled from the spec: `Exec(release, hookKind,
timeout)`, code in pkg/action/hooks.go outside src/), the release-name
validator (modelled from the spec: a syntactic validity predicate,
chartutil.ValidateReleaseName outside src/), and the current time. -/
structure Env where
  kube : KubeClient
  execHook : Release → String → Nat → Option Err
  validName : String → Bool
  now : Nat

/-! ## The Rollback action configuration (the fields of struct Rollback) -/

structure Rollback where
  version : Int
  timeout : Nat
  wait : Bool
  waitForJobs : Bool
  disableHooks : Bool
  dryRun : Bool
  recreate : Bool
  force : Bool
  cleanupOnFail : Bool
  maxHistory : Int
  serverDryRun : Bool

/-- errInvalidRevision (defined in the action package). -/
def errInvalidRevision : Err := "invalid release revision"

/-- The draft target release built by prepareRollback from the current
release and the designated previous release. -/
def mkTarget (name : String) (env : Env) (currentRelease previousRelease : Release)
    (previousVersion : Int) : Release :=
  { name := name
    «namespace» := currentRelease.«namespace»
    chart := previousRelease.chart
    config := previousRelease.config
    info :=
      { firstDeployed := currentRelease.info.firstDeployed
        lastDeployed := env.now
        status := Status.pendingRollback
        notes := previousRelease.info.notes
        description := "Rollback to " ++ toString previousVersion }
    version := currentRelease.version + 1
    manifest := previousRelease.manifest
    hooks := previousRelease.hooks }

/-- prepareRollback: validates the name and requested revision, finds the
current (latest) release and the designated previous release, and builds the
draft target release. Returns the pair together with the extended call
trace; the store is read, never written. -/
def prepareRollback (r : Rollback) (env : Env) (s : Store) (tr : List Event)
    (name : String) : Except Err (Release × Release) × List Event :=
  if env.validName name = false then
    (.error ("prepareRollback: Release name is invalid: " ++ name), tr)
  else if r.version < 0 then
    (.error errInvalidRevision, tr)
  else
    let tr := tr ++ [Event.storeLast name]
    match s.last name with
    | .error e => (.error e, tr)
    | .ok currentRelease =>
      let previousVersion := if r.version = 0 then currentRelease.version - 1 else r.version
      let tr := tr ++ [Event.storeGet name previousVersion]
      match s.get name previousVersion with
      | .error e => (.error e, tr)
      | .ok previousRelease =>
        (.ok (currentRelease, mkTarget name env currentRelease previousRelease previousVersion), tr)

/-! ## performRollback

The outcome of performRollback is the (possibly mutated) target release, an
optional kube.Result, and an optional error, together with the store and
trace after the step. -/

/-- The apply-failure recovery path of performRollback (the body of
`if err != nil` after `KubeClient.Update`): marks the current release
superseded and the target failed with the failure message, persists both via
recordRelease unless serverDryRun, and when cleanupOnFail deletes the
created objects, joining any deletion errors with the original apply
error. -/
def applyFailure (r : Rollback) (env : Env) (s : Store) (tr : List Event)
    (currentRelease targetRelease : Release) (results : KubeResult) (err : Err) :
    (Release × Option KubeResult × Option Err) × Store × List Event :=
  let msg := "Rollback " ++ quoted targetRelease.name ++ " failed: " ++ err
  let currentRelease := withStatus currentRelease Status.superseded
  let targetRelease :=
    { targetRelease with
      info := { targetRelease.info with status := Status.failed, description := msg } }
  if r.serverDryRun then
    ((targetRelease, some results, some err), s, tr)
  else
    let s := recordRelease (recordRelease s currentRelease) targetRelease
    let tr := tr ++ [Event.storeUpdate currentRelease, Event.storeUpdate targetRelease]
    if r.cleanupOnFail then
      let tr := tr ++ [Event.kubeDelete results.created]
      let errs := env.kube.delete results.created
      if errs.isEmpty then
        ((targetRelease, some results, some err), s, tr)
      else
        ((targetRelease, none,
          some (wrap ("unable to cleanup resources: " ++ String.intercalate ", " errs)
            ("an error occurred while cleaning up resources. original rollback error: " ++ err))),
         s, tr)
    else
      ((targetRelease, some results, some err), s, tr)

/-- The part of performRollback after a successful `KubeClient.Update`:
the serverDryRun short-circuit, the best-effort pod recreation, the optional
wait (with its failure recovery), the post-rollback hook, and the
supersession bookkeeping on full success. -/
def afterApplySuccess (r : Rollback) (env : Env) (s : Store) (tr : List Event)
    (currentRelease targetRelease : Release) (tgtObjs : List String)
    (results : KubeResult) :
    (Release × Option KubeResult × Option Err) × Store × List Event :=
  if r.serverDryRun then
    ((withStatus targetRelease Status.deployed, some results, none), s, tr)
  else
    let tr := if r.recreate then tr ++ [Event.recreatePods] else tr
    let waitErr : Option Err :=
      if r.wait then
        if r.waitForJobs then env.kube.waitWithJobs tgtObjs r.timeout
        else env.kube.wait tgtObjs r.timeout
      else none
    let tr :=
      if r.wait then
        if r.waitForJobs then tr ++ [Event.kubeWaitWithJobs] else tr ++ [Event.kubeWait]
      else tr
    match waitErr with
    | some e =>
      let targetRelease := targetRelease.setStatus Status.failed
        ("Release " ++ quoted targetRelease.name ++ " failed: " ++ e)
      let s := recordRelease (recordRelease s currentRelease) targetRelease
      let tr := tr ++ [Event.storeUpdate currentRelease, Event.storeUpdate targetRelease]
      ((targetRelease, none, some (wrap e ("release " ++ targetRelease.name ++ " failed"))), s, tr)
    | none =>
      let hookErr : Option Err :=
        if r.disableHooks = false then env.execHook targetRelease "post-rollback" r.timeout
        else none
      let tr :=
        if r.disableHooks = false then tr ++ [Event.hookExec "post-rollback"] else tr
      match hookErr with
      | some e => ((targetRelease, none, some e), s, tr)
      | none =>
        let tr := tr ++ [Event.storeDeployedAll currentRelease.name]
        let deployed := (s.deployedAll currentRelease.name).map
          (fun rel => withStatus rel Status.superseded)
        let s := deployed.foldl recordRelease s
        let tr := tr ++ deployed.map Event.storeUpdate
        ((withStatus targetRelease Status.deployed, some results, none), s, tr)

/-- performRollback: client-side dry-run short-circuit, building both object
sets, the pre-rollback hook, the apply, and the two continuation paths. -/
def performRollback (r : Rollback) (env : Env) (s : Store) (tr : List Event)
    (currentRelease targetRelease : Release) :
    (Release × Option KubeResult × Option Err) × Store × List Event :=
  if r.dryRun then
    ((targetRelease, none, none), s, tr)
  else
    let tr := tr ++ [Event.kubeBuild currentRelease.manifest]
    match env.kube.build currentRelease.manifest with
    | .error e =>
      ((targetRelease, none,
        some (wrap e "unable to build kubernetes objects from current release manifest")), s, tr)
    | .ok curObjs =>
      let tr := tr ++ [Event.kubeBuild targetRelease.manifest]
      match env.kube.build targetRelease.manifest with
      | .error e =>
        ((targetRelease, none,
          some (wrap e "unable to build kubernetes objects from new release manifest")), s, tr)
      | .ok tgtObjs =>
        let hookErr : Option Err :=
          if r.serverDryRun = false && r.disableHooks = false then
            env.execHook targetRelease "pre-rollback" r.timeout
          else none
        let tr :=
          if r.serverDryRun = false && r.disableHooks = false then
            tr ++ [Event.hookExec "pre-rollback"]
          else tr
        match hookErr with
        | some e => ((targetRelease, none, some e), s, tr)
        | none =>
          let tr := tr ++ [Event.kubeUpdate]
          match env.kube.update curObjs tgtObjs r.force with
          | (results, some e) =>
            applyFailure r env s tr currentRelease targetRelease results e
          | (results, none) =>
            afterApplySuccess r env s tr currentRelease targetRelease tgtObjs results

/-! ## RunWithResult (the public entry point) -/

/-- The capability error returned when serverDryRun is requested against a
client without the capability (the source message uses a contraction for
"does not"). -/
def errNoServerDryRun : Err := "the kube client does not support server dry run"

/-- RunWithResult: capability pre-flight, reachability check, rollback
preparation, draft creation (unless a dry run), performRollback, and the
final status update (unless a dry run). Returns the kube result and error
pair together with the final store and the full call trace of the run. -/
def RunWithResult (r : Rollback) (env : Env) (s : Store) (name : String) :
    (Option KubeResult × Option Err) × Store × List Event :=
  if r.serverDryRun && !env.kube.serverDryRunnable then
    ((none, some errNoServerDryRun), s, [])
  else
    let tr : List Event := [Event.kubeIsReachable]
    match env.kube.isReachable with
    | some e => ((none, some e), s, tr)
    | none =>
      match prepareRollback r env s tr name with
      | (.error e, tr) => ((none, some e), s, tr)
      | (.ok (currentRelease, targetRelease), tr) =>
        let createRes : Except Err Store :=
          if r.dryRun = false && r.serverDryRun = false then s.create targetRelease
          else .ok s
        let tr :=
          if r.dryRun = false && r.serverDryRun = false then
            tr ++ [Event.storeCreate targetRelease]
          else tr
        match createRes with
        | .error e => ((none, some e), s, tr)
        | .ok s =>
          match performRollback r env s tr currentRelease targetRelease with
          | ((_, _, some e), s, tr) => ((none, some e), s, tr)
          | ((tgt, kubeResult, none), s, tr) =>
            if r.dryRun = false && r.serverDryRun = false then
              let tr := tr ++ [Event.storeUpdate tgt]
              match s.updateE tgt with
              | .error e => ((none, some e), s, tr)
              | .ok s => ((kubeResult, none), s, tr)
            else ((kubeResult, none), s, tr)

/-! ## Concrete sample data (used by the witness theorems) -/

/-- A sample release record of name "app". -/
def sampleRel (v : Int) (st : Status) : Release :=
  { name := "app"
    «namespace» := "ns"
    chart := "chart-v" ++ toString v
    config := "cfg-v" ++ toString v
    info :=
      { firstDeployed := 10
        lastDeployed := 10 + v.toNat
        status := st
        notes := "notes-v" ++ toString v
        description := "Install complete" }
    version := v
    manifest := "manifest-v" ++ toString v
    hooks := ["hook-v" ++ toString v] }

/-- A sample store: revisions 3 and 4 superseded, revision 5 deployed. -/
def sampleStore : Store :=
  [sampleRel 3 Status.superseded, sampleRel 4 Status.superseded, sampleRel 5 Status.deployed]

/-- A happy-path environment: reachable cluster, every call succeeds. -/
def happyEnv : Env :=
  { kube :=
      { serverDryRunnable := true
        isReachable := none
        build := fun m => .ok [m]
        update := fun _ t _ => ({ created := ["objA", "objB"], updated := t, deleted := [] }, none)
        wait := fun _ _ => none
        waitWithJobs := fun _ _ => none
        delete := fun _ => [] }
    execHook := fun _ _ _ => none
    validName := fun n => n == "app"
    now := 100 }

/-- The default rollback configuration used by the witnesses. -/
def baseCfg : Rollback :=
  { version := 0
    timeout := 30
    wait := false
    waitForJobs := false
    disableHooks := false
    dryRun := false
    recreate := false
    force := false
    cleanupOnFail := false
    maxHistory := 10
    serverDryRun := false }

/-- Run: the error-only wrapper over RunWithResult. -/
def Run (r : Rollback) (env : Env) (s : Store) (name : String) :
    Option Err × Store × List Event :=
  match RunWithResult r env s name with
  | ((_, e), s, tr) => (e, s, tr)

/-! ## Basic lemmas about the store model -/

theorem sameKey_iff (a b : Release) :
    sameKey a b = true ↔ a.name = b.name ∧ a.version = b.version := by
  simp [sameKey]

theorem withStatus_name (rel : Release) (st : Status) :
    (withStatus rel st).name = rel.name := rfl

theorem withStatus_version (rel : Release) (st : Status) :
    (withStatus rel st).version = rel.version := rfl

theorem withStatus_status (rel : Release) (st : Status) :
    (withStatus rel st).info.status = st := rfl

theorem pickLater_eq_some (l : List Release) :
    ∀ acc c, l.foldl pickLater acc = some c → acc = some c ∨ c ∈ l := by
  induction l with
  | nil => intro acc c h; exact Or.inl h
  | cons r rest ih =>
    intro acc c h
    rcases ih (pickLater acc r) c h with h1 | h1
    · unfold pickLater at h1
      match acc with
      | none =>
        simp only [Option.some.injEq] at h1
        exact Or.inr (h1 ▸ List.mem_cons_self r rest)
      | some b =>
        by_cases hb : b.version < r.version
        · simp [hb, Option.some.injEq] at h1
          exact Or.inr (h1 ▸ List.mem_cons_self r rest)
        · simp [hb] at h1
          exact Or.inl (by rw [h1])
    · exact Or.inr (List.mem_cons_of_mem r h1)

/-- The record returned by `Last(name)` is a stored record with that name. -/
theorem Store.last_ok (s : Store) (name : String) (c : Release)
    (h : Store.last s name = .ok c) : c ∈ s ∧ c.name = name := by
  unfold Store.last at h
  rcases hfold : (s.filter (fun r => r.name == name)).foldl pickLater none with _ | c'
  · rw [hfold] at h; exact absurd h (by simp)
  · rw [hfold] at h
    simp only [Except.ok.injEq] at h
    subst h
    rcases pickLater_eq_some _ none c' hfold with h1 | h1
    · exact absurd h1 (by simp)
    · have := List.mem_filter.mp h1
      exact ⟨this.1, by simpa using this.2⟩

/-- One key-matching replacement: the element map of `Store.update`. -/
def subst (rel y : Release) : Release := if sameKey y rel then rel else y

theorem Store.update_eq_map (s : Store) (rel : Release) :
    Store.update s rel = s.map (subst rel) := rfl

theorem subst_name (rel y : Release) : (subst rel y).name = y.name := by
  unfold subst
  split
  · next h => exact ((sameKey_iff y rel).mp h).1.symm
  · rfl

theorem subst_version (rel y : Release) : (subst rel y).version = y.version := by
  unfold subst
  split
  · next h => exact ((sameKey_iff y rel).mp h).2.symm
  · rfl

/-- The element map of a sequence of `Store.update` calls. -/
def substSeq (rels : List Release) (y : Release) : Release :=
  rels.foldl (fun z rel => subst rel z) y

theorem substSeq_cons (r : Release) (rels : List Release) (y : Release) :
    substSeq (r :: rels) y = substSeq rels (subst r y) := rfl

theorem substSeq_name (rels : List Release) :
    ∀ y, (substSeq rels y).name = y.name := by
  induction rels with
  | nil => intro y; rfl
  | cons r rest ih => intro y; rw [substSeq_cons, ih, subst_name]

theorem substSeq_version (rels : List Release) :
    ∀ y, (substSeq rels y).version = y.version := by
  induction rels with
  | nil => intro y; rfl
  | cons r rest ih => intro y; rw [substSeq_cons, ih, subst_version]

theorem foldl_update_eq_map (rels : List Release) :
    ∀ s : Store, rels.foldl Store.update s = s.map (substSeq rels) := by
  induction rels with
  | nil =>
    intro s
    rw [List.foldl_nil, show substSeq ([] : List Release) = id from rfl, List.map_id]
  | cons r rest ih =>
    intro s
    rw [List.foldl_cons, ih, Store.update_eq_map, List.map_map]
    rfl

theorem substSeq_eq_or_mem (rels : List Release) :
    ∀ y, substSeq rels y = y ∨ substSeq rels y ∈ rels := by
  induction rels with
  | nil => intro y; exact Or.inl rfl
  | cons r rest ih =>
    intro y
    rw [substSeq_cons]
    cases hb : sameKey y r with
    | true =>
      have hs : subst r y = r := by simp [subst, hb]
      rw [hs]
      rcases ih r with h1 | h1
      · exact Or.inr (by rw [h1]; exact List.mem_cons_self r rest)
      · exact Or.inr (List.mem_cons_of_mem _ h1)
    | false =>
      have hs : subst r y = y := by simp [subst, hb]
      rw [hs]
      rcases ih y with h1 | h1
      · exact Or.inl h1
      · exact Or.inr (List.mem_cons_of_mem _ h1)

theorem substSeq_hit (rels : List Release) :
    ∀ y, (∃ rel ∈ rels, sameKey y rel = true) → substSeq rels y ∈ rels := by
  induction rels with
  | nil => intro y h; simp at h
  | cons r rest ih =>
    intro y h
    rw [substSeq_cons]
    cases hb : sameKey y r with
    | true =>
      have hs : subst r y = r := by simp [subst, hb]
      rw [hs]
      rcases substSeq_eq_or_mem rest r with h1 | h1
      · rw [h1]; exact List.mem_cons_self r rest
      · exact List.mem_cons_of_mem _ h1
    | false =>
      have hs : subst r y = y := by simp [subst, hb]
      rw [hs]
      rcases h with ⟨rel, hmem, hk⟩
      rcases List.mem_cons.mp hmem with rfl | hmem2
      · rw [hb] at hk; cases hk
      · exact List.mem_cons_of_mem _ (ih y ⟨rel, hmem2, hk⟩)

/-! ## Characterization of prepareRollback -/

theorem prepareRollback_ok (r : Rollback) (env : Env) (s : Store) (tr : List Event)
    (name : String) (cur prev : Release)
    (hname : env.validName name = true)
    (hv : ¬ r.version < 0)
    (hlast : Store.last s name = .ok cur)
    (hget : Store.get s name (if r.version = 0 then cur.version - 1 else r.version) = .ok prev) :
    prepareRollback r env s tr name =
      (.ok (cur, mkTarget name env cur prev
          (if r.version = 0 then cur.version - 1 else r.version)),
       tr ++ [Event.storeLast name,
              Event.storeGet name (if r.version = 0 then cur.version - 1 else r.version)]) := by
  unfold prepareRollback
  simp [hname, hv, hlast, hget]

theorem prepareRollback_ok_inv {r : Rollback} {env : Env} {s : Store} {tr tr2 : List Event}
    {name : String} {c g : Release}
    (h : prepareRollback r env s tr name = (.ok (c, g), tr2)) :
    env.validName name = true ∧ ¬ r.version < 0 ∧ Store.last s name = .ok c ∧
    ∃ prev, Store.get s name (if r.version = 0 then c.version - 1 else r.version) = .ok prev ∧
      g = mkTarget name env c prev (if r.version = 0 then c.version - 1 else r.version) := by
  cases hvn : env.validName name with
  | false =>
    have hc : prepareRollback r env s tr name =
        (.error ("prepareRollback: Release name is invalid: " ++ name), tr) := by
      unfold prepareRollback; simp [hvn]
    rw [hc] at h
    simp at h
  | true =>
    by_cases hv : r.version < 0
    · have hc : prepareRollback r env s tr name = (.error errInvalidRevision, tr) := by
        unfold prepareRollback; simp [hvn, hv]
      rw [hc] at h
      simp at h
    · cases hlast : Store.last s name with
      | error e =>
        have hc : prepareRollback r env s tr name =
            (.error e, tr ++ [Event.storeLast name]) := by
          unfold prepareRollback; simp [hvn, hv, hlast]
        rw [hc] at h
        simp at h
      | ok c2 =>
        cases hget : Store.get s name (if r.version = 0 then c2.version - 1 else r.version) with
        | error e =>
          have hc : prepareRollback r env s tr name =
              (.error e,
               tr ++ [Event.storeLast name,
                 Event.storeGet name (if r.version = 0 then c2.version - 1 else r.version)]) := by
            unfold prepareRollback; simp [hvn, hv, hlast, hget]
          rw [hc] at h
          simp at h
        | ok prev =>
          rw [prepareRollback_ok r env s tr name c2 prev hvn hv hlast hget] at h
          simp only [Prod.mk.injEq, Except.ok.injEq] at h
          obtain ⟨⟨rfl, rfl⟩, -⟩ := h
          exact ⟨rfl, hv, rfl, prev, hget, rfl⟩

/-! ## Claim theorems -/

/-- C1: for a release whose current (latest) release has revision R, a
rollback with configuration revision 0 designates revision R-1 (an explicit
revision is used verbatim), and the draft target release has the same name
and namespace as the current release, chart, config, manifest, hooks and
notes copied from the designated release, revision R+1, firstDeployedAt
carried from the current release, lastDeployedAt set to now, status
PendingRollback, and description "Rollback to designatedRevision". -/
theorem prepareRollback_resolves_and_builds_draft
    (r : Rollback) (env : Env) (s : Store) (tr : List Event) (name : String)
    (cur prev : Release)
    (hname : env.validName name = true)
    (hv : 0 ≤ r.version)
    (hlast : Store.last s name = .ok cur)
    (hget : Store.get s name (if r.version = 0 then cur.version - 1 else r.version) = .ok prev) :
    prepareRollback r env s tr name =
      (.ok (cur,
        { name := name
          «namespace» := cur.«namespace»
          chart := prev.chart
          config := prev.config
          info :=
            { firstDeployed := cur.info.firstDeployed
              lastDeployed := env.now
              status := Status.pendingRollback
              notes := prev.info.notes
              description := "Rollback to " ++
                toString (if r.version = 0 then cur.version - 1 else r.version) }
          version := cur.version + 1
          manifest := prev.manifest
          hooks := prev.hooks }),
       tr ++ [Event.storeLast name,
              Event.storeGet name (if r.version = 0 then cur.version - 1 else r.version)]) := by
  rw [prepareRollback_ok r env s tr name cur prev hname (by omega) hlast hget]
  rfl

/-- Witness for C1 on the sample store: current revision 5, revision 0
designates 4, the draft is revision 6 pending rollback. -/
theorem prepareRollback_resolves_and_builds_draft_witness :
    prepareRollback baseCfg happyEnv sampleStore [] "app" =
      (.ok (sampleRel 5 Status.deployed,
        { name := "app"
          «namespace» := "ns"
          chart := "chart-v4"
          config := "cfg-v4"
          info :=
            { firstDeployed := 10
              lastDeployed := 100
              status := Status.pendingRollback
              notes := "notes-v4"
              description := "Rollback to 4" }
          version := 6
          manifest := "manifest-v4"
          hooks := ["hook-v4"] }),
       [Event.storeLast "app", Event.storeGet "app" 4]) := by
  rw [prepareRollback_resolves_and_builds_draft baseCfg happyEnv sampleStore [] "app"
      (sampleRel 5 Status.deployed) (sampleRel 4 Status.superseded)
      (by rfl) (by decide) (by rfl) (by rfl)]
  rfl

/-- C9: resolving the same name and configuration twice against an unchanged
store, without executing either rollback, produces two draft target releases
identical in every field except the lastDeployedAt timestamp. -/
theorem prepareRollback_idempotent_modulo_timestamp
    (r : Rollback) (env : Env) (s : Store) (tr1 tr2 trA trB : List Event)
    (name : String) (t1 t2 : Nat) (c1 g1 c2 g2 : Release)
    (h1 : prepareRollback r { env with now := t1 } s tr1 name = (.ok (c1, g1), trA))
    (h2 : prepareRollback r { env with now := t2 } s tr2 name = (.ok (c2, g2), trB)) :
    c1 = c2 ∧ g1.info.lastDeployed = t1 ∧ g2.info.lastDeployed = t2 ∧
    g1 = { g2 with info := { g2.info with lastDeployed := t1 } } := by
  obtain ⟨-, -, hlast1, prev1, hget1, hg1⟩ := prepareRollback_ok_inv h1
  obtain ⟨-, -, hlast2, prev2, hget2, hg2⟩ := prepareRollback_ok_inv h2
  have hc : c1 = c2 := by
    have := hlast1.symm.trans hlast2
    exact Except.ok.inj this
  subst hc
  have hp : prev1 = prev2 := by
    have := hget1.symm.trans hget2
    exact Except.ok.inj this
  subst hp
  subst hg1
  subst hg2
  exact ⟨rfl, rfl, rfl, rfl⟩

/-- Witness for C9: resolving at times 100 and 200 yields drafts equal
except for lastDeployedAt. -/
theorem prepareRollback_idempotent_modulo_timestamp_witness :
    ∃ g1 g2 : Release,
      (prepareRollback baseCfg { happyEnv with now := 100 } sampleStore [] "app").1 =
        .ok (sampleRel 5 Status.deployed, g1) ∧
      (prepareRollback baseCfg { happyEnv with now := 200 } sampleStore [] "app").1 =
        .ok (sampleRel 5 Status.deployed, g2) ∧
      g1.info.lastDeployed = 100 ∧ g2.info.lastDeployed = 200 ∧
      g1 = { g2 with info := { g2.info with lastDeployed := 100 } } := by
  refine ⟨(mkTarget "app" { happyEnv with now := 100 } (sampleRel 5 Status.deployed)
      (sampleRel 4 Status.superseded) 4),
    (mkTarget "app" { happyEnv with now := 200 } (sampleRel 5 Status.deployed)
      (sampleRel 4 Status.superseded) 4), by rfl, by rfl, ?_, ?_, ?_⟩
  · rfl
  · rfl
  · have h := prepareRollback_idempotent_modulo_timestamp baseCfg happyEnv sampleStore
      [] [] _ _ "app" 100 200 (sampleRel 5 Status.deployed) _ (sampleRel 5 Status.deployed) _
      (by rfl) (by rfl)
    exact h.2.2.2

/-- C6: serverDryRun against a Cluster Client lacking the capability returns
the capability error before IsReachable and before any other step; the
store is untouched and the call trace is empty. -/
theorem runWithResult_server_dry_run_capability_gate
    (r : Rollback) (env : Env) (s : Store) (name : String)
    (hs : r.serverDryRun = true) (hcap : env.kube.serverDryRunnable = false) :
    RunWithResult r env s name = ((none, some errNoServerDryRun), s, []) := by
  unfold RunWithResult
  simp [hs, hcap]

/-- An environment whose Cluster Client lacks the server-dry-run capability. -/
def noCapEnv : Env :=
  { happyEnv with kube := { happyEnv.kube with serverDryRunnable := false } }

/-- Witness for C6. -/
theorem runWithResult_server_dry_run_capability_gate_witness :
    RunWithResult { baseCfg with serverDryRun := true } noCapEnv sampleStore "app" =
      ((none, some errNoServerDryRun), sampleStore, []) :=
  runWithResult_server_dry_run_capability_gate _ _ _ _ rfl rfl

/-- C10: the public entry point never returns a non-nil kube result together
with a non-nil error; every failure path returns a nil result. -/
theorem runWithResult_no_result_with_error
    (r : Rollback) (env : Env) (s : Store) (name : String)
    (kres : Option KubeResult) (e : Err) (s2 : Store) (tr : List Event)
    (h : RunWithResult r env s name = ((kres, some e), s2, tr)) :
    kres = none := by
  have key : (RunWithResult r env s name).1.1 = none ∨
      (RunWithResult r env s name).1.2 = none := by
    unfold RunWithResult
    repeat' split
    all_goals try simp
    · rcases hprep : prepareRollback r env s [Event.kubeIsReachable] name with ⟨res, trp⟩
      rcases res with e2 | ⟨cur, tgt⟩
      · simp [hprep]
      · rcases hcre : s.create tgt with e3 | s1
        · simp [hprep, hcre]
        · rcases hperf : performRollback r env s1 (trp ++ [Event.storeCreate tgt]) cur tgt
            with ⟨⟨tgtR, kres2, errOpt⟩, s3, tr3⟩
          rcases errOpt with _ | e4
          · rcases hupd : s3.updateE tgtR with e5 | s4
            · simp [hprep, hcre, hperf, hupd]
            · simp [hprep, hcre, hperf, hupd]
          · simp [hprep, hcre, hperf]
    · rcases hprep : prepareRollback r env s [Event.kubeIsReachable] name with ⟨res, trp⟩
      rcases res with e2 | ⟨cur, tgt⟩
      · simp [hprep]
      · rcases hperf : performRollback r env s trp cur tgt
          with ⟨⟨tgtR, kres2, errOpt⟩, s3, tr3⟩
        rcases errOpt with _ | e4
        · simp [hprep, hperf]
        · simp [hprep, hperf]
  rw [h] at key
  simpa using key

/-- An environment whose cluster apply fails. -/
def applyFailEnv : Env :=
  { happyEnv with kube := { happyEnv.kube with
      update := fun _ _ _ =>
        ({ created := ["objA"], updated := [], deleted := [] }, some "apply boom") } }

/-- Witness for C10: a run whose apply fails returns a nil result. -/
theorem runWithResult_no_result_with_error_witness :
    (RunWithResult baseCfg applyFailEnv sampleStore "app").1.1 = none :=
  runWithResult_no_result_with_error baseCfg applyFailEnv sampleStore "app"
    (RunWithResult baseCfg applyFailEnv sampleStore "app").1.1
    "apply boom"
    (RunWithResult baseCfg applyFailEnv sampleStore "app").2.1
    (RunWithResult baseCfg applyFailEnv sampleStore "app").2.2
    (by rfl)

/-- C2: whenever the cluster apply step returns an error, the engine sets
currentRelease.status = Superseded, targetDraft.status = Failed and the
draft description to the failure message; unless serverDryRun it persists
both records; if cleanupOnFail it deletes every object of the created set,
and if deletion fails the returned error contains both the apply error text
and the joined deletion error texts; otherwise the apply error itself is
returned. -/
theorem performRollback_apply_failure_recovery
    (r : Rollback) (env : Env) (s : Store) (tr : List Event)
    (cur tgt : Release) (curObjs tgtObjs : List String) (results : KubeResult) (e : Err)
    (tgtR : Release) (kres : Option KubeResult) (errR : Option Err)
    (s2 : Store) (tr2 : List Event)
    (hdry : r.dryRun = false)
    (hb1 : env.kube.build cur.manifest = .ok curObjs)
    (hb2 : env.kube.build tgt.manifest = .ok tgtObjs)
    (hhook : (if r.serverDryRun = false && r.disableHooks = false then
        env.execHook tgt "pre-rollback" r.timeout else none) = none)
    (happly : env.kube.update curObjs tgtObjs r.force = (results, some e))
    (hrun : performRollback r env s tr cur tgt = ((tgtR, kres, errR), s2, tr2)) :
    tgtR = { tgt with
             info := { tgt.info with
                       status := Status.failed
                       description := "Rollback " ++ quoted tgt.name ++ " failed: " ++ e } } ∧
    (r.serverDryRun = false →
      s2 = recordRelease (recordRelease s (withStatus cur Status.superseded)) tgtR) ∧
    (r.serverDryRun = true → s2 = s) ∧
    (r.serverDryRun = false → r.cleanupOnFail = true →
      Event.kubeDelete results.created ∈ tr2 ∧
      (env.kube.delete results.created ≠ [] →
        errR = some (wrap ("unable to cleanup resources: " ++
            String.intercalate ", " (env.kube.delete results.created))
          ("an error occurred while cleaning up resources. original rollback error: " ++ e)))) ∧
    ((r.serverDryRun = true ∨ r.cleanupOnFail = false ∨ env.kube.delete results.created = []) →
      errR = some e) := by
  unfold performRollback at hrun
  simp only [hdry, Bool.false_eq_true, if_false, hb1, hb2, hhook] at hrun
  rw [happly] at hrun
  unfold applyFailure at hrun
  cases hs : r.serverDryRun with
  | true =>
    simp only [hs, if_true] at hrun
    simp only [Prod.mk.injEq] at hrun
    obtain ⟨⟨rfl, rfl, rfl⟩, rfl, rfl⟩ := hrun
    refine ⟨rfl, by simp [hs], fun _ => rfl, by simp [hs], fun _ => rfl⟩
  | false =>
    cases hc : r.cleanupOnFail with
    | false =>
      simp only [hs, hc, Bool.false_eq_true, if_false] at hrun
      simp only [Prod.mk.injEq] at hrun
      obtain ⟨⟨rfl, rfl, rfl⟩, rfl, rfl⟩ := hrun
      refine ⟨rfl, fun _ => rfl, by simp [hs], by simp [hc], fun _ => rfl⟩
    | true =>
      cases hdel : env.kube.delete results.created with
      | nil =>
        simp only [hs, hc, Bool.false_eq_true, if_false, if_true, hdel,
          List.isEmpty_nil] at hrun
        simp only [Prod.mk.injEq] at hrun
        obtain ⟨⟨rfl, rfl, rfl⟩, rfl, rfl⟩ := hrun
        refine ⟨rfl, fun _ => rfl, by simp [hs], fun _ _ => ⟨by simp, by simp [hdel]⟩,
          fun _ => rfl⟩
      | cons d ds =>
        simp only [hs, hc, Bool.false_eq_true, if_false, if_true, hdel,
          List.isEmpty_cons] at hrun
        simp only [Prod.mk.injEq] at hrun
        obtain ⟨⟨rfl, rfl, rfl⟩, rfl, rfl⟩ := hrun
        refine ⟨rfl, fun _ => rfl, by simp [hs], fun _ _ => ⟨by simp, fun _ => rfl⟩, ?_⟩
        intro hor
        rcases hor with h1 | h1 | h1 <;> simp at h1

/-- A configuration with cleanupOnFail set. -/
def cleanupCfg : Rollback := { baseCfg with cleanupOnFail := true }

/-- An environment whose apply fails and whose deletions also fail. -/
def cleanupFailEnv : Env :=
  { applyFailEnv with kube := { applyFailEnv.kube with
      delete := fun _ => ["deleting objA failed"] } }

/-- Witness for C2: apply failure with cleanupOnFail, deletion failing; the
draft is failed, the created set is deleted, and the compound error keeps
the original apply error text. -/
theorem performRollback_apply_failure_recovery_witness :
    (performRollback cleanupCfg cleanupFailEnv sampleStore []
        (sampleRel 5 Status.deployed) (sampleRel 6 Status.pendingRollback)).1.1.info.status
      = Status.failed ∧
    Event.kubeDelete ["objA"] ∈
      (performRollback cleanupCfg cleanupFailEnv sampleStore []
        (sampleRel 5 Status.deployed) (sampleRel 6 Status.pendingRollback)).2.2 ∧
    (performRollback cleanupCfg cleanupFailEnv sampleStore []
        (sampleRel 5 Status.deployed) (sampleRel 6 Status.pendingRollback)).1.2.2 =
      some (wrap ("unable to cleanup resources: deleting objA failed")
        ("an error occurred while cleaning up resources. original rollback error: apply boom")) := by
  have h := performRollback_apply_failure_recovery cleanupCfg cleanupFailEnv sampleStore []
    (sampleRel 5 Status.deployed) (sampleRel 6 Status.pendingRollback)
    ["manifest-v5"] ["manifest-v6"]
    { created := ["objA"], updated := [], deleted := [] } "apply boom"
    (performRollback cleanupCfg cleanupFailEnv sampleStore []
      (sampleRel 5 Status.deployed) (sampleRel 6 Status.pendingRollback)).1.1
    (performRollback cleanupCfg cleanupFailEnv sampleStore []
      (sampleRel 5 Status.deployed) (sampleRel 6 Status.pendingRollback)).1.2.1
    (performRollback cleanupCfg cleanupFailEnv sampleStore []
      (sampleRel 5 Status.deployed) (sampleRel 6 Status.pendingRollback)).1.2.2
    (performRollback cleanupCfg cleanupFailEnv sampleStore []
      (sampleRel 5 Status.deployed) (sampleRel 6 Status.pendingRollback)).2.1
    (performRollback cleanupCfg cleanupFailEnv sampleStore []
      (sampleRel 5 Status.deployed) (sampleRel 6 Status.pendingRollback)).2.2
    rfl rfl rfl rfl rfl (by rfl)
  refine ⟨by rw [h.1], (h.2.2.2.1 rfl rfl).1, ?_⟩
  exact (h.2.2.2.1 rfl rfl).2 (by decide)

/-- C3: on a wait failure after a successful apply, only the target draft is
marked Failed; the current release record is persisted unchanged (its status
field is untouched, not Superseded), a wrapped timeout error is returned, a
nil kube result is returned, and no deletion of applied objects happens
regardless of cleanupOnFail. -/
theorem performRollback_wait_failure_no_cleanup
    (r : Rollback) (env : Env) (s : Store) (tr : List Event)
    (cur tgt : Release) (curObjs tgtObjs : List String) (results : KubeResult) (e : Err)
    (tgtR : Release) (kres : Option KubeResult) (errR : Option Err)
    (s2 : Store) (tr2 : List Event)
    (hdry : r.dryRun = false)
    (hsdr : r.serverDryRun = false)
    (hb1 : env.kube.build cur.manifest = .ok curObjs)
    (hb2 : env.kube.build tgt.manifest = .ok tgtObjs)
    (hhook : (if r.serverDryRun = false && r.disableHooks = false then
        env.execHook tgt "pre-rollback" r.timeout else none) = none)
    (happly : env.kube.update curObjs tgtObjs r.force = (results, none))
    (hwait : r.wait = true)
    (hwe : (if r.waitForJobs then env.kube.waitWithJobs tgtObjs r.timeout
        else env.kube.wait tgtObjs r.timeout) = some e)
    (hrun : performRollback r env s tr cur tgt = ((tgtR, kres, errR), s2, tr2)) :
    tgtR = tgt.setStatus Status.failed ("Release " ++ quoted tgt.name ++ " failed: " ++ e) ∧
    s2 = recordRelease (recordRelease s cur) tgtR ∧
    kres = none ∧
    errR = some (wrap e ("release " ++ tgt.name ++ " failed")) ∧
    (∀ objs, Event.kubeDelete objs ∈ tr2 → Event.kubeDelete objs ∈ tr) := by
  unfold performRollback at hrun
  simp only [hdry, Bool.false_eq_true, if_false, hb1, hb2, hhook] at hrun
  rw [happly] at hrun
  unfold afterApplySuccess at hrun
  cases hwj : r.waitForJobs with
  | true =>
    simp only [hwj, if_true] at hwe
    simp only [hsdr, hwait, hwj, Bool.false_eq_true, if_false, if_true, hwe] at hrun
    simp only [Prod.mk.injEq] at hrun
    obtain ⟨⟨rfl, rfl, rfl⟩, rfl, rfl⟩ := hrun
    refine ⟨rfl, rfl, rfl, rfl, ?_⟩
    intro objs hm
    cases hrec : r.recreate <;> cases hdh : r.disableHooks <;>
      simp [hrec, hdh, List.mem_append] at hm <;>
      exact hm
  | false =>
    simp only [hwj, Bool.false_eq_true, if_false] at hwe
    simp only [hsdr, hwait, hwj, Bool.false_eq_true, if_false, if_true, hwe] at hrun
    simp only [Prod.mk.injEq] at hrun
    obtain ⟨⟨rfl, rfl, rfl⟩, rfl, rfl⟩ := hrun
    refine ⟨rfl, rfl, rfl, rfl, ?_⟩
    intro objs hm
    cases hrec : r.recreate <;> cases hdh : r.disableHooks <;>
      simp [hrec, hdh, List.mem_append] at hm <;>
      exact hm

/-- A configuration that waits for readiness. -/
def waitCfg : Rollback := { baseCfg with wait := true }

/-- An environment whose wait times out after a successful apply. -/
def waitFailEnv : Env :=
  { happyEnv with kube := { happyEnv.kube with wait := fun _ _ => some "timed out" } }

/-- Witness for C3: a wait timeout marks only the draft Failed, wraps the
timeout error, and deletes nothing. -/
theorem performRollback_wait_failure_no_cleanup_witness :
    (performRollback waitCfg waitFailEnv sampleStore []
        (sampleRel 5 Status.deployed) (sampleRel 6 Status.pendingRollback)).1.1.info.status
      = Status.failed ∧
    (performRollback waitCfg waitFailEnv sampleStore []
        (sampleRel 5 Status.deployed) (sampleRel 6 Status.pendingRollback)).1.2.2 =
      some (wrap "timed out" "release app failed") ∧
    (∀ objs, Event.kubeDelete objs ∉
      (performRollback waitCfg waitFailEnv sampleStore []
        (sampleRel 5 Status.deployed) (sampleRel 6 Status.pendingRollback)).2.2) := by
  have h := performRollback_wait_failure_no_cleanup waitCfg waitFailEnv sampleStore []
    (sampleRel 5 Status.deployed) (sampleRel 6 Status.pendingRollback)
    ["manifest-v5"] ["manifest-v6"]
    { created := ["objA", "objB"], updated := ["manifest-v6"], deleted := [] } "timed out"
    (performRollback waitCfg waitFailEnv sampleStore []
      (sampleRel 5 Status.deployed) (sampleRel 6 Status.pendingRollback)).1.1
    (performRollback waitCfg waitFailEnv sampleStore []
      (sampleRel 5 Status.deployed) (sampleRel 6 Status.pendingRollback)).1.2.1
    (performRollback waitCfg waitFailEnv sampleStore []
      (sampleRel 5 Status.deployed) (sampleRel 6 Status.pendingRollback)).1.2.2
    (performRollback waitCfg waitFailEnv sampleStore []
      (sampleRel 5 Status.deployed) (sampleRel 6 Status.pendingRollback)).2.1
    (performRollback waitCfg waitFailEnv sampleStore []
      (sampleRel 5 Status.deployed) (sampleRel 6 Status.pendingRollback)).2.2
    rfl rfl rfl rfl rfl rfl rfl rfl (by rfl)
  refine ⟨by rw [h.1]; rfl, h.2.2.2.1, ?_⟩
  intro objs hmem
  exact absurd (h.2.2.2.2 objs hmem) (List.not_mem_nil _)

/-- C7: when serverDryRun is set and the apply succeeds, the target draft is
marked Deployed in memory and the run returns immediately with the kube
result: the store is unchanged, and the trace shows no wait, no hook
execution, no supersession bookkeeping and no store Create or Update
anywhere in the run. -/
theorem runWithResult_server_dry_run_success_no_persist
    (r : Rollback) (env : Env) (s : Store) (name : String)
    (cur prev : Release) (curObjs tgtObjs : List String) (results : KubeResult)
    (hs : r.serverDryRun = true)
    (hdry : r.dryRun = false)
    (hcap : env.kube.serverDryRunnable = true)
    (hreach : env.kube.isReachable = none)
    (hname : env.validName name = true)
    (hv : ¬ r.version < 0)
    (hlast : Store.last s name = .ok cur)
    (hget : Store.get s name (if r.version = 0 then cur.version - 1 else r.version) = .ok prev)
    (hb1 : env.kube.build cur.manifest = .ok curObjs)
    (hb2 : env.kube.build prev.manifest = .ok tgtObjs)
    (happly : env.kube.update curObjs tgtObjs r.force = (results, none)) :
    RunWithResult r env s name =
      ((some results, none), s,
       [Event.kubeIsReachable, Event.storeLast name,
        Event.storeGet name (if r.version = 0 then cur.version - 1 else r.version),
        Event.kubeBuild cur.manifest, Event.kubeBuild prev.manifest, Event.kubeUpdate]) ∧
    performRollback r env s
        [Event.kubeIsReachable, Event.storeLast name,
         Event.storeGet name (if r.version = 0 then cur.version - 1 else r.version)]
        cur (mkTarget name env cur prev (if r.version = 0 then cur.version - 1 else r.version)) =
      ((withStatus (mkTarget name env cur prev
          (if r.version = 0 then cur.version - 1 else r.version)) Status.deployed,
        some results, none), s,
       [Event.kubeIsReachable, Event.storeLast name,
        Event.storeGet name (if r.version = 0 then cur.version - 1 else r.version),
        Event.kubeBuild cur.manifest, Event.kubeBuild prev.manifest, Event.kubeUpdate]) ∧
    (∀ rel, Event.storeCreate rel ∉ (RunWithResult r env s name).2.2 ∧
      Event.storeUpdate rel ∉ (RunWithResult r env s name).2.2) ∧
    Event.kubeWait ∉ (RunWithResult r env s name).2.2 ∧
    Event.kubeWaitWithJobs ∉ (RunWithResult r env s name).2.2 ∧
    (∀ k, Event.hookExec k ∉ (RunWithResult r env s name).2.2) := by
  have hperf : performRollback r env s
      [Event.kubeIsReachable, Event.storeLast name,
       Event.storeGet name (if r.version = 0 then cur.version - 1 else r.version)]
      cur (mkTarget name env cur prev (if r.version = 0 then cur.version - 1 else r.version)) =
      ((withStatus (mkTarget name env cur prev
          (if r.version = 0 then cur.version - 1 else r.version)) Status.deployed,
        some results, none), s,
       [Event.kubeIsReachable, Event.storeLast name,
        Event.storeGet name (if r.version = 0 then cur.version - 1 else r.version),
        Event.kubeBuild cur.manifest, Event.kubeBuild prev.manifest, Event.kubeUpdate]) := by
    unfold performRollback
    simp only [hdry, Bool.false_eq_true, if_false, hb1]
    simp only [show (mkTarget name env cur prev
        (if r.version = 0 then cur.version - 1 else r.version)).manifest = prev.manifest
      from rfl, hb2]
    simp only [hs, Bool.true_eq_false, Bool.false_and, if_false]
    rw [happly]
    unfold afterApplySuccess
    simp [hs]
  have hrunEq : RunWithResult r env s name =
      ((some results, none), s,
       [Event.kubeIsReachable, Event.storeLast name,
        Event.storeGet name (if r.version = 0 then cur.version - 1 else r.version),
        Event.kubeBuild cur.manifest, Event.kubeBuild prev.manifest, Event.kubeUpdate]) := by
    unfold RunWithResult
    simp only [hs, hcap, Bool.not_true, Bool.and_false, Bool.false_eq_true, if_false, hreach]
    rw [prepareRollback_ok r env s [Event.kubeIsReachable] name cur prev hname hv hlast hget]
    simp only [hs, Bool.true_eq_false, and_false, decide_False, Bool.and_false,
      Bool.false_eq_true, if_false]
    simp only [List.cons_append, List.nil_append, hperf]
  refine ⟨hrunEq, hperf, ?_, ?_, ?_, ?_⟩ <;> rw [hrunEq] <;> simp

/-- Witness for C7 on the sample store with a capable, reachable cluster. -/
theorem runWithResult_server_dry_run_success_no_persist_witness :
    RunWithResult { baseCfg with serverDryRun := true } happyEnv sampleStore "app" =
      ((some { created := ["objA", "objB"], updated := ["manifest-v4"], deleted := [] }, none),
       sampleStore,
       [Event.kubeIsReachable, Event.storeLast "app", Event.storeGet "app" 4,
        Event.kubeBuild "manifest-v5", Event.kubeBuild "manifest-v4", Event.kubeUpdate]) :=
  (runWithResult_server_dry_run_success_no_persist
    { baseCfg with serverDryRun := true } happyEnv sampleStore "app"
    (sampleRel 5 Status.deployed) (sampleRel 4 Status.superseded)
    ["manifest-v5"] ["manifest-v4"]
    { created := ["objA", "objB"], updated := ["manifest-v4"], deleted := [] }
    rfl rfl rfl rfl rfl (by decide) (by rfl) (by rfl) rfl rfl rfl).1

/-- The trace produced by prepareRollback is the input trace, possibly
extended by the storeLast and storeGet read events. -/
theorem prepareRollback_trace (r : Rollback) (env : Env) (s : Store) (tr : List Event)
    (name : String) :
    (prepareRollback r env s tr name).2 = tr ∨
    (prepareRollback r env s tr name).2 = tr ++ [Event.storeLast name] ∨
    ∃ v, (prepareRollback r env s tr name).2 =
      tr ++ [Event.storeLast name, Event.storeGet name v] := by
  unfold prepareRollback
  cases hvn : env.validName name with
  | false => simp [hvn]
  | true =>
    by_cases hv : r.version < 0
    · simp [hvn, hv]
    · cases hlast : Store.last s name with
      | error e => simp [hvn, hv, hlast]
      | ok cur =>
        cases hget : Store.get s name (if r.version = 0 then cur.version - 1 else r.version) with
        | error e =>
          refine Or.inr (Or.inr ⟨if r.version = 0 then cur.version - 1 else r.version, ?_⟩)
          simp [hvn, hv, hlast, hget]
        | ok prev =>
          refine Or.inr (Or.inr ⟨if r.version = 0 then cur.version - 1 else r.version, ?_⟩)
          simp [hvn, hv, hlast, hget]

/-- With dryRun set, performRollback is a pure short-circuit. -/
theorem performRollback_dryRun (r : Rollback) (env : Env) (s : Store) (tr : List Event)
    (cur tgt : Release) (hdry : r.dryRun = true) :
    performRollback r env s tr cur tgt = ((tgt, none, none), s, tr) := by
  unfold performRollback
  simp [hdry]

/-- C5 counterexample: with dryRun=true the run still calls IsReachable (the
pre-flight reachability check is not skipped), and the public entry returns
a nil kube result rather than the draft release. -/
theorem runWithResult_dry_run_calls_isReachable_counterexample :
    (RunWithResult { baseCfg with dryRun := true } happyEnv sampleStore "app").2.2 =
      [Event.kubeIsReachable, Event.storeLast "app", Event.storeGet "app" 4] ∧
    Event.kubeIsReachable ∈
      (RunWithResult { baseCfg with dryRun := true } happyEnv sampleStore "app").2.2 ∧
    (RunWithResult { baseCfg with dryRun := true } happyEnv sampleStore "app").1 =
      (none, none) := by
  refine ⟨by rfl, ?_, by rfl⟩
  rw [(by rfl : (RunWithResult { baseCfg with dryRun := true } happyEnv sampleStore "app").2.2 =
      [Event.kubeIsReachable, Event.storeLast "app", Event.storeGet "app" 4])]
  exact List.mem_cons_self _ _

/-- C5 as amended: a client-side dry run performs zero store Create or
Update calls and leaves the store unchanged, and the public entry returns a
nil kube result (the draft is only returned by the internal perform step);
however IsReachable is still invoked, since the pre-flight reachability
check runs regardless of dryRun. -/
theorem runWithResult_dry_run_no_mutation
    (r : Rollback) (env : Env) (s : Store) (name : String)
    (hdry : r.dryRun = true) (hsdr : r.serverDryRun = false) :
    (RunWithResult r env s name).2.1 = s ∧
    (RunWithResult r env s name).1.1 = none ∧
    Event.kubeIsReachable ∈ (RunWithResult r env s name).2.2 ∧
    (∀ rel, Event.storeCreate rel ∉ (RunWithResult r env s name).2.2 ∧
      Event.storeUpdate rel ∉ (RunWithResult r env s name).2.2) := by
  have hmem : ∀ tr2, (prepareRollback r env s [Event.kubeIsReachable] name).2 = tr2 →
      Event.kubeIsReachable ∈ tr2 ∧
      (∀ rel, Event.storeCreate rel ∉ tr2 ∧ Event.storeUpdate rel ∉ tr2) := by
    intro tr2 htr
    rcases prepareRollback_trace r env s [Event.kubeIsReachable] name with h | h | ⟨v, h⟩ <;>
      rw [htr] at h <;> subst h <;> simp
  unfold RunWithResult
  simp only [hsdr, Bool.false_and, Bool.false_eq_true, if_false]
  cases hreach : env.kube.isReachable with
  | some e => simp
  | none =>
    rcases hprep : prepareRollback r env s [Event.kubeIsReachable] name with ⟨res, trp⟩
    have hm := hmem trp (by rw [hprep])
    rcases res with e2 | ⟨cur, tgt⟩
    · simpa [hprep] using hm
    · simp only [hdry, Bool.true_eq_false, decide_False, Bool.false_and, Bool.false_eq_true,
        if_false]
      rw [performRollback_dryRun r env s trp cur tgt hdry]
      simpa using hm

/-- Witness for the amended C5 on the sample store. -/
theorem runWithResult_dry_run_no_mutation_witness :
    (RunWithResult { baseCfg with dryRun := true } happyEnv sampleStore "app").2.1 =
      sampleStore ∧
    (RunWithResult { baseCfg with dryRun := true } happyEnv sampleStore "app").1.1 = none ∧
    Event.kubeIsReachable ∈
      (RunWithResult { baseCfg with dryRun := true } happyEnv sampleStore "app").2.2 ∧
    (∀ rel, Event.storeCreate rel ∉
        (RunWithResult { baseCfg with dryRun := true } happyEnv sampleStore "app").2.2 ∧
      Event.storeUpdate rel ∉
        (RunWithResult { baseCfg with dryRun := true } happyEnv sampleStore "app").2.2) :=
  runWithResult_dry_run_no_mutation { baseCfg with dryRun := true } happyEnv sampleStore "app"
    rfl rfl

/-- An environment whose manifest building fails. -/
def buildFailEnv : Env :=
  { happyEnv with kube := { happyEnv.kube with build := fun _ => .error "bad yaml" } }

/-- C4 counterexample: a run that fails after pre-flight (the current
manifest does not build) returns an error, yet no release record anywhere in
the final store has status Failed — the persisted draft (revision 6) still
has status PendingRollback, refuting "every terminal failure after step 1
sets at least targetDraft.status = Failed". -/
theorem runWithResult_build_failure_keeps_pending_counterexample :
    (RunWithResult baseCfg buildFailEnv sampleStore "app").1.2 =
      some (wrap "bad yaml" "unable to build kubernetes objects from current release manifest") ∧
    (∀ rel ∈ (RunWithResult baseCfg buildFailEnv sampleStore "app").2.1,
      rel.info.status ≠ Status.failed) ∧
    (∃ rel ∈ (RunWithResult baseCfg buildFailEnv sampleStore "app").2.1,
      rel.version = 6 ∧ rel.info.status = Status.pendingRollback) :=
  ⟨by rfl, by decide, by decide⟩

/-- C4 as amended: executions that terminate with an error after pre-flight
because a manifest fails to build or because a hook fails return the error
with the target draft release and the store completely unchanged — the
draft keeps its PendingRollback status; a Failed status is set only by the
apply-failure and wait-failure recovery paths. -/
theorem performRollback_error_status_policy
    (r : Rollback) (env : Env) (s : Store) (tr : List Event) (cur tgt : Release)
    (hdry : r.dryRun = false) :
    (∀ e, env.kube.build cur.manifest = .error e →
      ∃ tr2, performRollback r env s tr cur tgt =
        ((tgt, none, some (wrap e "unable to build kubernetes objects from current release manifest")),
         s, tr2)) ∧
    (∀ e curObjs, env.kube.build cur.manifest = .ok curObjs →
      env.kube.build tgt.manifest = .error e →
      ∃ tr2, performRollback r env s tr cur tgt =
        ((tgt, none, some (wrap e "unable to build kubernetes objects from new release manifest")),
         s, tr2)) ∧
    (∀ e curObjs tgtObjs, env.kube.build cur.manifest = .ok curObjs →
      env.kube.build tgt.manifest = .ok tgtObjs →
      r.serverDryRun = false → r.disableHooks = false →
      env.execHook tgt "pre-rollback" r.timeout = some e →
      ∃ tr2, performRollback r env s tr cur tgt = ((tgt, none, some e), s, tr2)) ∧
    (∀ e curObjs tgtObjs results, env.kube.build cur.manifest = .ok curObjs →
      env.kube.build tgt.manifest = .ok tgtObjs →
      r.serverDryRun = false → r.disableHooks = false →
      env.execHook tgt "pre-rollback" r.timeout = none →
      env.kube.update curObjs tgtObjs r.force = (results, none) →
      (if r.wait then (if r.waitForJobs then env.kube.waitWithJobs tgtObjs r.timeout
          else env.kube.wait tgtObjs r.timeout) else none) = none →
      env.execHook tgt "post-rollback" r.timeout = some e →
      ∃ tr2, performRollback r env s tr cur tgt = ((tgt, none, some e), s, tr2)) := by
  refine ⟨?_, ?_, ?_, ?_⟩
  · intro e he
    unfold performRollback
    simp only [hdry, Bool.false_eq_true, if_false, he]
    exact ⟨_, rfl⟩
  · intro e curObjs hb1 hb2
    unfold performRollback
    simp only [hdry, Bool.false_eq_true, if_false, hb1, hb2]
    exact ⟨_, rfl⟩
  · intro e curObjs tgtObjs hb1 hb2 hsdr hdh hhk
    unfold performRollback
    simp only [hdry, hsdr, hdh, Bool.false_eq_true, if_false, hb1, hb2, decide_True,
      Bool.and_self, if_true, hhk]
    exact ⟨_, rfl⟩
  · intro e curObjs tgtObjs results hb1 hb2 hsdr hdh hpre happly hwaitres hpost
    unfold performRollback
    simp only [hdry, hsdr, hdh, Bool.false_eq_true, if_false, hb1, hb2, decide_True,
      Bool.and_self, if_true, hpre]
    rw [happly]
    unfold afterApplySuccess
    simp only [hsdr, Bool.false_eq_true, if_false, hwaitres, hdh, decide_True, if_true, hpost]
    exact ⟨_, rfl⟩

/-- Witness for the amended C4: a build failure returns the error and leaves
the draft (still PendingRollback) and the store untouched. -/
theorem performRollback_error_status_policy_witness :
    (performRollback baseCfg buildFailEnv sampleStore []
        (sampleRel 5 Status.deployed) (sampleRel 6 Status.pendingRollback)).1 =
      (sampleRel 6 Status.pendingRollback, none,
       some (wrap "bad yaml" "unable to build kubernetes objects from current release manifest")) ∧
    (performRollback baseCfg buildFailEnv sampleStore []
        (sampleRel 5 Status.deployed) (sampleRel 6 Status.pendingRollback)).2.1 =
      sampleStore := by
  obtain ⟨tr2, hp⟩ := (performRollback_error_status_policy baseCfg buildFailEnv sampleStore []
      (sampleRel 5 Status.deployed) (sampleRel 6 Status.pendingRollback) rfl).1 "bad yaml" rfl
  exact ⟨by rw [hp], by rw [hp]⟩

/-! ## The success path: supersession bookkeeping -/

/-- The superseded copies of every currently deployed release of a name (the
records written by the supersession loop). -/
def supersededCopies (s : Store) (n : String) : List Release :=
  (s.deployedAll n).map (fun rel => withStatus rel Status.superseded)

theorem foldl_recordRelease (rels : List Release) (s : Store) :
    rels.foldl recordRelease s = rels.foldl Store.update s := rfl

theorem mem_supersededCopies {s1 : Store} {n : String} {y : Release} :
    y ∈ supersededCopies s1 n ↔
    ∃ q ∈ s1, q.name = n ∧ q.info.status = Status.deployed ∧
      y = withStatus q Status.superseded := by
  constructor
  · intro hy
    obtain ⟨q, hq, hyq⟩ := List.mem_map.mp hy
    obtain ⟨hq1, hq2⟩ := List.mem_filter.mp hq
    simp only [Bool.and_eq_true, beq_iff_eq] at hq2
    exact ⟨q, hq1, hq2.1, hq2.2, hyq.symm⟩
  · rintro ⟨q, hq, hn, hd, rfl⟩
    exact List.mem_map.mpr ⟨q, List.mem_filter.mpr ⟨hq, by simp [hn, hd]⟩, rfl⟩

/-- Membership in the store produced by the supersession fold followed by
the final status update. -/
theorem mem_final {s1 : Store} {D : List Release} {tgtF x : Release} :
    x ∈ Store.update (D.foldl Store.update s1) tgtF ↔
    ∃ y ∈ s1, x = subst tgtF (substSeq D y) := by
  rw [foldl_update_eq_map, Store.update_eq_map, List.map_map]
  constructor
  · intro hx
    obtain ⟨y, hy, hxy⟩ := List.mem_map.mp hx
    exact ⟨y, hy, hxy.symm⟩
  · rintro ⟨y, hy, rfl⟩
    exact List.mem_map.mpr ⟨y, hy, rfl⟩

/-- On the success path, the final deployed target record is in the store. -/
theorem final_target_mem (s : Store) (tgt : Release) (n : String)
    (hnok : ∀ x ∈ s, sameKey x tgt = false)
    (hts : tgt.info.status ≠ Status.deployed) :
    withStatus tgt Status.deployed ∈
      Store.update ((supersededCopies (s ++ [tgt]) n).foldl Store.update (s ++ [tgt]))
        (withStatus tgt Status.deployed) := by
  apply mem_final.mpr
  refine ⟨tgt, List.mem_append.mpr (Or.inr (by simp)), ?_⟩
  have h1 : substSeq (supersededCopies (s ++ [tgt]) n) tgt = tgt := by
    rcases substSeq_eq_or_mem (supersededCopies (s ++ [tgt]) n) tgt with h | h
    · exact h
    · exfalso
      obtain ⟨q, hq, hqn, hqd, heq⟩ := mem_supersededCopies.mp h
      have hkname := substSeq_name (supersededCopies (s ++ [tgt]) n) tgt
      have hkver := substSeq_version (supersededCopies (s ++ [tgt]) n) tgt
      rw [heq, withStatus_name] at hkname
      rw [heq, withStatus_version] at hkver
      rcases List.mem_append.mp hq with hqs | hqt
      · have hk : sameKey q tgt = true := (sameKey_iff _ _).mpr ⟨hkname, hkver⟩
        rw [hnok q hqs] at hk
        simp at hk
      · have hqe : q = tgt := by simpa using hqt
        rw [hqe] at hqd
        exact hts hqd
  rw [h1]
  unfold subst
  have hc : sameKey tgt (withStatus tgt Status.deployed) = true :=
    (sameKey_iff tgt (withStatus tgt Status.deployed)).mpr ⟨rfl, rfl⟩
  rw [if_pos hc]

/-- On the success path, every release of the name that was deployed before
the run has a superseded record with the same name and revision afterwards. -/
theorem final_superseded_mem (s : Store) (tgt : Release) (n : String) (rel : Release)
    (hnok : ∀ x ∈ s, sameKey x tgt = false)
    (hrel : rel ∈ s) (hrn : rel.name = n) (hrd : rel.info.status = Status.deployed) :
    ∃ rel2 ∈ Store.update ((supersededCopies (s ++ [tgt]) n).foldl Store.update (s ++ [tgt]))
        (withStatus tgt Status.deployed),
      rel2.name = rel.name ∧ rel2.version = rel.version ∧
        rel2.info.status = Status.superseded := by
  have hrel1 : rel ∈ s ++ [tgt] := List.mem_append.mpr (Or.inl hrel)
  have hhit : substSeq (supersededCopies (s ++ [tgt]) n) rel ∈ supersededCopies (s ++ [tgt]) n := by
    apply substSeq_hit
    exact ⟨withStatus rel Status.superseded,
      mem_supersededCopies.mpr ⟨rel, hrel1, hrn, hrd, rfl⟩,
      (sameKey_iff _ _).mpr ⟨rfl, rfl⟩⟩
  have hyname := substSeq_name (supersededCopies (s ++ [tgt]) n) rel
  have hyver := substSeq_version (supersededCopies (s ++ [tgt]) n) rel
  have hystatus : (substSeq (supersededCopies (s ++ [tgt]) n) rel).info.status =
      Status.superseded := by
    obtain ⟨q, -, -, -, heq⟩ := mem_supersededCopies.mp hhit
    rw [heq, withStatus_status]
  have hnokeyF : sameKey (substSeq (supersededCopies (s ++ [tgt]) n) rel)
      (withStatus tgt Status.deployed) = false := by
    cases hk : sameKey (substSeq (supersededCopies (s ++ [tgt]) n) rel)
        (withStatus tgt Status.deployed) with
    | false => rfl
    | true =>
      exfalso
      obtain ⟨hn1, hv1⟩ := (sameKey_iff _ _).mp hk
      rw [hyname, withStatus_name] at hn1
      rw [hyver, withStatus_version] at hv1
      have : sameKey rel tgt = true := (sameKey_iff _ _).mpr ⟨hn1, hv1⟩
      rw [hnok rel hrel] at this
      simp at this
  refine ⟨substSeq (supersededCopies (s ++ [tgt]) n) rel, ?_, hyname, hyver, hystatus⟩
  apply mem_final.mpr
  refine ⟨rel, hrel1, ?_⟩
  unfold subst
  rw [if_neg (by rw [hnokeyF]; simp)]

/-- On the success path, the only deployed record of the name left in the
store is the final target record. -/
theorem final_deployed_unique (s : Store) (tgt : Release) (n : String) (rel2 : Release)
    (hmem : rel2 ∈ Store.update ((supersededCopies (s ++ [tgt]) n).foldl Store.update (s ++ [tgt]))
        (withStatus tgt Status.deployed))
    (hn2 : rel2.name = n) (hd2 : rel2.info.status = Status.deployed) :
    rel2 = withStatus tgt Status.deployed := by
  obtain ⟨y, hy, hrel2⟩ := mem_final.mp hmem
  rcases hk : sameKey (substSeq (supersededCopies (s ++ [tgt]) n) y)
      (withStatus tgt Status.deployed) with _ | _
  · -- not the target key: rel2 is the substSeq image itself
    have hrel2' : rel2 = substSeq (supersededCopies (s ++ [tgt]) n) y := by
      rw [hrel2]; unfold subst; rw [if_neg (by rw [hk]; simp)]
    rcases substSeq_eq_or_mem (supersededCopies (s ++ [tgt]) n) y with hcase | hcase
    · -- the image is y itself: y is a deployed record of the name, so its
      -- superseded copy is in the fold list and would have replaced it
      exfalso
      rw [hcase] at hrel2'
      subst hrel2'
      have : substSeq (supersededCopies (s ++ [tgt]) n) rel2 ∈
          supersededCopies (s ++ [tgt]) n := by
        apply substSeq_hit
        exact ⟨withStatus rel2 Status.superseded,
          mem_supersededCopies.mpr ⟨rel2, hy, hn2, hd2, rfl⟩,
          (sameKey_iff _ _).mpr ⟨rfl, rfl⟩⟩
      rw [hcase] at this
      obtain ⟨q, -, -, -, heq⟩ := mem_supersededCopies.mp this
      rw [heq, withStatus_status] at hd2
      exact Status.noConfusion hd2
    · -- the image is a superseded copy, contradicting deployed
      exfalso
      rw [← hrel2'] at hcase
      obtain ⟨q, -, -, -, heq⟩ := mem_supersededCopies.mp hcase
      rw [heq, withStatus_status] at hd2
      exact Status.noConfusion hd2
  · -- the target key: rel2 is the final target record
    rw [hrel2]; unfold subst; rw [if_pos hk]

/-- C8: on full success, every release of the name that was Deployed at the
time of the run is transitioned to Superseded and persisted, the target
release ends Deployed at revision current+1, and at most one release of the
name holds status Deployed afterwards (any deployed record is the final
target record). -/
theorem runWithResult_success_supersedes_deployed
    (r : Rollback) (env : Env) (s : Store) (name : String)
    (cur prev tgt : Release) (curObjs tgtObjs : List String) (results : KubeResult)
    (hdry : r.dryRun = false)
    (hsdr : r.serverDryRun = false)
    (hreach : env.kube.isReachable = none)
    (hname : env.validName name = true)
    (hv : ¬ r.version < 0)
    (hlast : Store.last s name = .ok cur)
    (hget : Store.get s name (if r.version = 0 then cur.version - 1 else r.version) = .ok prev)
    (htgt : tgt = mkTarget name env cur prev (if r.version = 0 then cur.version - 1 else r.version))
    (hnokey : s.any (fun x => sameKey x tgt) = false)
    (hb1 : env.kube.build cur.manifest = .ok curObjs)
    (hb2 : env.kube.build tgt.manifest = .ok tgtObjs)
    (hpre : (if r.serverDryRun = false && r.disableHooks = false then
        env.execHook tgt "pre-rollback" r.timeout else none) = none)
    (happly : env.kube.update curObjs tgtObjs r.force = (results, none))
    (hwaitres : (if r.wait then (if r.waitForJobs then env.kube.waitWithJobs tgtObjs r.timeout
        else env.kube.wait tgtObjs r.timeout) else none) = none)
    (hpost : (if r.disableHooks = false then env.execHook tgt "post-rollback" r.timeout
        else none) = none) :
    ∃ s2 tr2,
      RunWithResult r env s name = ((some results, none), s2, tr2) ∧
      tgt.version = cur.version + 1 ∧
      withStatus tgt Status.deployed ∈ s2 ∧
      (∀ rel ∈ s, rel.name = name → rel.info.status = Status.deployed →
        ∃ rel2 ∈ s2, rel2.name = name ∧ rel2.version = rel.version ∧
          rel2.info.status = Status.superseded) ∧
      (∀ rel ∈ s2, rel.name = name → rel.info.status = Status.deployed →
        rel = withStatus tgt Status.deployed) := by
  have hcurname : cur.name = name := (Store.last_ok s name cur hlast).2
  have htver : tgt.version = cur.version + 1 := by rw [htgt]; rfl
  have htstatus : tgt.info.status = Status.pendingRollback := by rw [htgt]; rfl
  have hnokey' : ∀ x ∈ s, sameKey x tgt = false := by
    intro x hx
    cases hsk : sameKey x tgt with
    | false => rfl
    | true =>
      exfalso
      have hany : s.any (fun y => sameKey y tgt) = true := List.any_eq_true.mpr ⟨x, hx, hsk⟩
      rw [hnokey] at hany
      simp at hany
  have htgtmem : tgt ∈ s ++ [tgt] := List.mem_append.mpr (Or.inr (by simp))
  have hperf : ∀ trA, ∃ trP, performRollback r env (s ++ [tgt]) trA cur tgt =
      ((withStatus tgt Status.deployed, some results, none),
       (supersededCopies (s ++ [tgt]) cur.name).foldl Store.update (s ++ [tgt]), trP) := by
    intro trA
    unfold performRollback
    simp only [hdry, Bool.false_eq_true, if_false, hb1, hb2, hpre]
    rw [happly]
    unfold afterApplySuccess
    simp only [hsdr, Bool.false_eq_true, if_false, hwaitres, hpost]
    exact ⟨_, rfl⟩
  have hcreate : Store.create s tgt = .ok (s ++ [tgt]) := by
    unfold Store.create
    simp only [hnokey, Bool.false_eq_true, if_false]
  have hany2 : ((supersededCopies (s ++ [tgt]) cur.name).foldl Store.update (s ++ [tgt])).any
      (fun x => sameKey x (withStatus tgt Status.deployed)) = true := by
    rw [foldl_update_eq_map]
    apply List.any_eq_true.mpr
    refine ⟨substSeq (supersededCopies (s ++ [tgt]) cur.name) tgt,
      List.mem_map.mpr ⟨tgt, htgtmem, rfl⟩, ?_⟩
    apply (sameKey_iff _ _).mpr
    constructor
    · rw [substSeq_name]; rfl
    · rw [substSeq_version]; rfl
  have hupdE : Store.updateE
      ((supersededCopies (s ++ [tgt]) cur.name).foldl Store.update (s ++ [tgt]))
      (withStatus tgt Status.deployed) =
      .ok (Store.update
        ((supersededCopies (s ++ [tgt]) cur.name).foldl Store.update (s ++ [tgt]))
        (withStatus tgt Status.deployed)) := by
    unfold Store.updateE
    simp only [hany2, if_true]
  have hrun : ∃ tr2,
      RunWithResult r env s name =
        ((some results, none),
         Store.update ((supersededCopies (s ++ [tgt]) cur.name).foldl Store.update (s ++ [tgt]))
           (withStatus tgt Status.deployed), tr2) := by
    unfold RunWithResult
    simp only [hsdr, Bool.false_eq_true, Bool.false_and, if_false, hreach]
    rw [prepareRollback_ok r env s [Event.kubeIsReachable] name cur prev hname hv hlast hget]
    rw [← htgt]
    simp only [hdry, hsdr]
    simp only [eq_self_iff_true, decide_True, Bool.and_self, if_true]
    simp only [hcreate]
    obtain ⟨trP, hp⟩ := hperf ([Event.kubeIsReachable] ++
      [Event.storeLast name,
       Event.storeGet name (if r.version = 0 then cur.version - 1 else r.version)] ++
      [Event.storeCreate tgt])
    simp only [hp]
    simp only [hupdE]
    exact ⟨_, rfl⟩
  obtain ⟨tr2, hrunEq⟩ := hrun
  refine ⟨_, tr2, hrunEq, htver, ?_, ?_, ?_⟩
  · exact final_target_mem s tgt cur.name hnokey' (by rw [htstatus]; simp)
  · intro rel hrel hrn hrd
    obtain ⟨rel2, hmem, hn, hv2, hst⟩ := final_superseded_mem s tgt cur.name rel hnokey' hrel
      (hrn.trans hcurname.symm) hrd
    exact ⟨rel2, hmem, hn.trans hrn, hv2, hst⟩
  · intro rel2 hmem hn2 hd2
    exact final_deployed_unique s tgt cur.name rel2 hmem (hn2.trans hcurname.symm) hd2

/-- Witness for C8 on the sample store: after a fully successful rollback of
"app" (deployed at revision 5), the only deployed record of the name is the
new revision-6 record. -/
theorem runWithResult_success_supersedes_deployed_witness :
    (RunWithResult baseCfg happyEnv sampleStore "app").1 =
      (some { created := ["objA", "objB"], updated := ["manifest-v4"], deleted := [] }, none) ∧
    (∀ rel ∈ (RunWithResult baseCfg happyEnv sampleStore "app").2.1,
      rel.name = "app" → rel.info.status = Status.deployed → rel.version = 6) ∧
    (∃ rel ∈ (RunWithResult baseCfg happyEnv sampleStore "app").2.1,
      rel.name = "app" ∧ rel.version = 5 ∧ rel.info.status = Status.superseded) := by
  obtain ⟨s2, tr2, hEq, -, hmemT, hsup, huniq⟩ :=
    runWithResult_success_supersedes_deployed baseCfg happyEnv sampleStore "app"
      (sampleRel 5 Status.deployed) (sampleRel 4 Status.superseded)
      (mkTarget "app" happyEnv (sampleRel 5 Status.deployed) (sampleRel 4 Status.superseded)
        (if baseCfg.version = 0 then (sampleRel 5 Status.deployed).version - 1
         else baseCfg.version))
      ["manifest-v5"] ["manifest-v4"]
      { created := ["objA", "objB"], updated := ["manifest-v4"], deleted := [] }
      rfl rfl rfl rfl (by decide) (by rfl) (by rfl) rfl (by decide) rfl rfl rfl rfl rfl rfl
  refine ⟨by rw [hEq], ?_, ?_⟩
  · intro rel hm hn hd
    rw [hEq] at hm
    have := huniq rel hm hn hd
    rw [this]
    rfl
  · obtain ⟨rel2, hm2, hn2, hv2, hs2⟩ :=
      hsup (sampleRel 5 Status.deployed) (by decide) rfl rfl
    rw [hEq]
    exact ⟨rel2, hm2, hn2, by rw [hv2]; rfl, hs2⟩

end Helm
